import Mathlib

/-!
# Verification of the Buro issue/project service layer

Shallow embedding of the data model and service operations of the Buro
agile project-management application (`buro/models/*.py`,
`buro/services/project_service.py`, `buro/services/issue_service.py`),
together with theorems settling the specification claims about them.

Embedding conventions:
* Database rows are Lean structures holding the columns the services read;
  opaque UUID identifiers become `Nat`, generated from a `next_id` counter
  carried by the database state.
* The async session becomes explicit state passing on a `DB` record; a
  `select ... where` query becomes `List.find?` / `List.filter`, and
  mutating a loaded ORM object followed by `commit` becomes a functional
  update of the row with the same id (SQLAlchemy's identity map makes the
  loaded object and the row one and the same, and autoflush makes
  intermediate writes visible to later queries in the same call).
* `raise HTTPException(status_code=...)` becomes `Except.error` with a
  constructor per status code actually raised; an uncaught Python
  exception (`NameError`, `ValueError`) gets its own constructor, distinct
  from every `HTTPException` outcome.
* Python float division in `get_project_stats` is modelled as exact
  division in `ℚ`.
-/

set_option autoImplicit false

deriving instance DecidableEq for Except

namespace Buro

/-! ### Enumerations (`buro/models/issue.py`, `buro/models/user.py`) -/

/-- `Role` enum from `buro/models/user.py`. -/
inductive Role where
  | admin
  | manager
  | developer
deriving DecidableEq, Repr

/-- `IssueType` enum from `buro/models/issue.py`. -/
inductive IssueType where
  | bug
  | task
  | story
  | epic
deriving DecidableEq, Repr

/-- `IssueStatus` enum from `buro/models/issue.py`, in declaration order
`BACKLOG, TO_DO, IN_PROGRESS, DONE`. -/
inductive IssueStatus where
  | backlog
  | to_do
  | in_progress
  | done
deriving DecidableEq, Repr

/-- `Priority` enum from `buro/models/issue.py`. -/
inductive Priority where
  | highest
  | high
  | medium
  | low
  | lowest
deriving DecidableEq, Repr

/-- `list(IssueStatus)`: the enum members in declaration order. -/
def issueStatusList : List IssueStatus :=
  [.backlog, .to_do, .in_progress, .done]

/-- `list(IssueStatus).index(s)`: position of a status in declaration order. -/
def statusIndex : IssueStatus → Nat
  | .backlog => 0
  | .to_do => 1
  | .in_progress => 2
  | .done => 3

/-- The `.value` string of an `IssueStatus` member. -/
def IssueStatus.value : IssueStatus → String
  | .backlog => "backlog"
  | .to_do => "to_do"
  | .in_progress => "in_progress"
  | .done => "done"

/-- `IssueStatus(value)`: Python enum lookup by value, `none` when the
lookup would raise `ValueError`. -/
def IssueStatus.ofValue : String → Option IssueStatus
  | "backlog" => some .backlog
  | "to_do" => some .to_do
  | "in_progress" => some .in_progress
  | "done" => some .done
  | _ => none

/-- The `.value` string of a `Priority` member. -/
def Priority.value : Priority → String
  | .highest => "highest"
  | .high => "high"
  | .medium => "medium"
  | .low => "low"
  | .lowest => "lowest"

/-- `[p.value for p in Priority]`. -/
def priorityValues : List String :=
  ["highest", "high", "medium", "low", "lowest"]

/-- `Priority(value)`: Python enum lookup by value, `none` when the lookup
would raise `ValueError`. -/
def Priority.ofValue : String → Option Priority
  | "highest" => some .highest
  | "high" => some .high
  | "medium" => some .medium
  | "low" => some .low
  | "lowest" => some .lowest
  | _ => none

/-! ### Rows (`buro/models/user.py`, `project.py`, `issue.py`)

Each structure holds the columns the two services under verification read
or write; authentication-only columns (email, password hash, avatar) are
not consulted by any claim and are left out of the row. -/

/-- A row of the `users` table, restricted to the columns the project and
issue services consult: `id`, `role`, `is_active`. -/
structure User where
  id : Nat
  role : Role
  is_active : Bool
deriving DecidableEq, Repr

/-- A row of the `projects` table. `name` and `description` are `Option`s
because `update_project` stores `None` for falsy values
(`value.strip() if value else None`). -/
structure Project where
  id : Nat
  name : Option String
  key : String
  description : Option String
  owner_id : Nat
deriving DecidableEq, Repr

/-- A row of the `issues` table. -/
structure Issue where
  id : Nat
  issue_number : Nat
  title : String
  description : Option String
  issue_type : IssueType
  status : IssueStatus
  priority : Priority
  project_id : Nat
  reporter_id : Nat
  assignee_id : Option Nat
deriving DecidableEq, Repr

/-- `Project.generate_issue_key` from `buro/models/project.py`:
Jira-style display key `{key}-{number}`. -/
def Project.generate_issue_key (p : Project) (issue_number : Nat) : String :=
  p.key ++ "-" ++ toString issue_number

/-- `Issue.key` property from `buro/models/issue.py`, with the project
relationship resolved to an explicit argument. -/
def issueDisplayKey (p : Project) (i : Issue) : String :=
  p.generate_issue_key i.issue_number

/-- `Issue.transition_status` from `buro/models/issue.py`: the entity-level
helper. Returns the Python boolean result together with the resulting
issue (Python mutates `self`). -/
def Issue.transition_status (i : Issue) (new_status : IssueStatus) : Bool × Issue :=
  let current_idx := statusIndex i.status
  let new_idx := statusIndex new_status
  if new_status ≠ IssueStatus.done ∧ new_idx < current_idx then
    (false, i)
  else
    (true, { i with status := new_status })

/-! ### Database state -/

/-- Errors raised by the services. The first four mirror the
`HTTPException` status codes raised in the source (404, 403, 400, 409);
`py_name_error` and `py_value_error` model uncaught Python exceptions
(`NameError`, `ValueError`); `no_result` models `scalar_one()` finding no
row. -/
inductive Err where
  | not_found
  | forbidden
  | invalid_input
  | conflict
  | py_name_error
  | py_value_error
  | no_result
deriving DecidableEq, Repr

/-- The persistent store: the three tables plus a counter standing in for
the store-generated opaque identifiers. -/
structure DB where
  users : List User
  projects : List Project
  issues : List Issue
  next_id : Nat
deriving DecidableEq, Repr

/-- `db.get(User, uid)`. -/
def DB.findUser (db : DB) (uid : Nat) : Option User :=
  db.users.find? (fun u => u.id == uid)

/-- `db.get(Project, pid)`. -/
def DB.findProject (db : DB) (pid : Nat) : Option Project :=
  db.projects.find? (fun p => p.id == pid)

/-- `db.get(Issue, iid)` / `select(Issue).where(Issue.id == iid)`. -/
def DB.findIssue (db : DB) (iid : Nat) : Option Issue :=
  db.issues.find? (fun i => i.id == iid)

/-- Mutating the loaded issue with id `iid` and committing. -/
def DB.setIssue (db : DB) (iid : Nat) (g : Issue → Issue) : DB :=
  { db with issues := db.issues.map (fun i => if i.id == iid then g i else i) }

/-- Mutating the loaded project with id `pid` and committing. -/
def DB.setProject (db : DB) (pid : Nat) (g : Project → Project) : DB :=
  { db with projects := db.projects.map (fun p => if p.id == pid then g p else p) }

/-! ### Access predicates -/

/-- `IssueService._user_can_access_project` from
`buro/services/issue_service.py` (every branch returns `True`). -/
def issueServiceUserCanAccessProject (user : User) (project : Project) : Bool :=
  if user.role = Role.admin then true
  else if user.role = Role.manager ∧ user.id = project.owner_id then true
  else true

/-- `IssueService._user_can_access_issue` from
`buro/services/issue_service.py`: constantly `True`. -/
def issueServiceUserCanAccessIssue (_user : User) (_issue : Issue) : Bool :=
  true

/-- `ProjectService._user_can_access_project` from
`buro/services/project_service.py`. -/
def projectServiceUserCanAccessProject (user : User) (project : Project) : Bool :=
  if user.role = Role.admin then true
  else if user.role = Role.manager ∧ project.owner_id = user.id then true
  else user.id == project.owner_id

/-! ### Python string helpers -/

/-- `c.isalnum() and c.isascii()`: for ASCII characters Python's `isalnum`
coincides with `Char.isAlphanum`, and every non-ASCII character fails the
conjunction either way. -/
def pyIsAsciiAlnum (c : Char) : Bool :=
  c.toNat < 128 && c.isAlphanum

/-- `value.strip() if value else None`: Python stores `None` for a falsy
(empty or absent) string, the stripped string otherwise. -/
def stripOrNone : Option String → Option String
  | none => none
  | some s => if s = "" then none else some s.trim

/-! ### `ProjectService` (`buro/services/project_service.py`) -/

/-- `ProjectService.create_project`. Returns the new state and the created
row on success. -/
def createProject (db : DB) (name : String) (key : String)
    (description : Option String) (owner : User) : Except Err (DB × Project) :=
  if ¬ (owner.role = Role.admin ∨ owner.role = Role.manager) then
    .error .forbidden
  else
    let key := key.toUpper.trim
    if key = "" then
      .error .invalid_input
    else if ¬ key.all pyIsAsciiAlnum then
      .error .invalid_input
    else if key.length > 10 then
      .error .invalid_input
    else if db.projects.any (fun p => p.key.toLower == key.toLower) then
      .error .conflict
    else
      let project : Project :=
        { id := db.next_id
          name := some name.trim
          key := key
          description := stripOrNone description
          owner_id := owner.id }
      .ok ({ db with projects := db.projects ++ [project], next_id := db.next_id + 1 },
           project)

/-- `ProjectService.get_project_by_key`: case-insensitive key lookup. -/
def getProjectByKey (db : DB) (project_key : String) : Except Err Project :=
  let key_upper := project_key.toUpper.trim
  match db.projects.find? (fun p => p.key.toLower == key_upper.toLower) with
  | none => .error .not_found
  | some project => .ok project

/-- `ProjectService._validate_project_key_unique`: `Conflict` when another
row (excluding `exclude_id`) has the same key case-insensitively. -/
def validateProjectKeyUnique (db : DB) (key : String) (exclude_id : Option Nat) :
    Except Err Unit :=
  let clash := db.projects.any (fun p =>
    p.key.toLower == key.toLower &&
      (match exclude_id with
       | none => true
       | some ex => ¬ p.id == ex))
  if clash then .error .conflict else .ok ()

/-- One entry of the free-form `updates` dict passed to `update_project`;
`other` stands for any field name outside the handled set, which the loop
silently ignores. -/
inductive ProjUpdate where
  | key (v : String)
  | name (v : String)
  | description (v : String)
  | other (field : String)
deriving DecidableEq, Repr

/-- One iteration of the `update_project` field loop, acting on the loaded
project row (autoflush makes each write visible to the next iteration's
uniqueness query). -/
def applyProjUpdate (db : DB) (pid : Nat) (f : ProjUpdate) : Except Err DB :=
  match db.findProject pid with
  | none => .error .no_result
  | some project =>
    match f with
    | .key v =>
      let new_key := v.toUpper.trim
      if new_key ≠ project.key then
        match validateProjectKeyUnique db new_key (some pid) with
        | .error e => .error e
        | .ok _ => .ok (db.setProject pid (fun p => { p with key := new_key }))
      else
        .ok (db.setProject pid (fun p => { p with key := new_key }))
    | .name v =>
      .ok (db.setProject pid (fun p => { p with name := stripOrNone (some v) }))
    | .description v =>
      .ok (db.setProject pid (fun p => { p with description := stripOrNone (some v) }))
    | .other _ => .ok db

/-- The `for field, value in updates.items()` loop of `update_project`. -/
def applyProjUpdates (db : DB) (pid : Nat) : List ProjUpdate → Except Err DB
  | [] => .ok db
  | f :: rest =>
    match applyProjUpdate db pid f with
    | .error e => .error e
    | .ok db' => applyProjUpdates db' pid rest

/-- `ProjectService.update_project`. -/
def updateProject (db : DB) (project_id : Nat) (updates : List ProjUpdate)
    (current_user : User) : Except Err DB :=
  match db.findProject project_id with
  | none => .error .not_found
  | some project =>
    if ¬ projectServiceUserCanAccessProject current_user project then
      .error .forbidden
    else
      applyProjUpdates db project_id updates

/-- `ProjectService.delete_project`: deletes the row; the
`cascade="all, delete-orphan"` relationship removes the project's issues. -/
def deleteProject (db : DB) (project_id : Nat) (current_user : User) :
    Except Err DB :=
  match db.findProject project_id with
  | none => .error .not_found
  | some project =>
    if ¬ projectServiceUserCanAccessProject current_user project then
      .error .forbidden
    else
      .ok { db with
              projects := db.projects.filter (fun p => ¬ p.id == project_id),
              issues := db.issues.filter (fun i => ¬ i.project_id == project_id) }

/-- Result rows of `select(Issue.status, count(Issue.id)).group_by(Issue.status)`
read back as a total count function (a status absent from the dict
contributes `0`, exactly what `.get(value, 0)` and `sum` see). -/
def statusCount (db : DB) (pid : Nat) (s : IssueStatus) : Nat :=
  (db.issues.filter (fun i => i.project_id == pid && i.status == s)).length

/-- The dictionary returned by `ProjectService.get_project_stats`. -/
structure ProjectStats where
  project_id : Nat
  project_key : String
  project_name : Option String
  issues : IssueStatus → Nat
  total : Nat
  completed : Nat
  completion_rate : ℚ

/-- `ProjectService.get_project_stats`. The access guard is the single
short-circuiting condition `not project or (role not manager/admin and not
owner)` from the source, so a missing project takes the same `403` branch
as a denied user. -/
def getProjectStats (db : DB) (project_id : Nat) (user : User) :
    Except Err ProjectStats :=
  match db.findProject project_id with
  | none => .error .forbidden
  | some project =>
    if ¬ (user.role = Role.admin ∨ user.role = Role.manager) ∧
        user.id ≠ project.owner_id then
      .error .forbidden
    else
      let counts := statusCount db project_id
      let total_issues := (issueStatusList.map counts).sum
      let completed_issues := counts IssueStatus.done
      .ok { project_id := project.id
            project_key := project.key
            project_name := project.name
            issues := counts
            total := total_issues
            completed := completed_issues
            completion_rate :=
              if total_issues > 0 then
                (completed_issues : ℚ) / (total_issues : ℚ)
              else 0 }

/-! ### `IssueService` (`buro/services/issue_service.py`) -/

/-- The result of `select(func.max(Issue.issue_number)).where(...)`:
`none` when the project has no issues. -/
def listMax : List Nat → Option Nat
  | [] => none
  | n :: l =>
    match listMax l with
    | none => some n
    | some m => some (Nat.max n m)

/-- `max(issue_number)` over the project's issues. -/
def projectMaxIssueNumber (db : DB) (pid : Nat) : Option Nat :=
  listMax ((db.issues.filter (fun i => i.project_id == pid)).map (fun i => i.issue_number))

/-- The `issue_number` column values of a project's issues, in row order. -/
def projectNumbers (db : DB) (pid : Nat) : List Nat :=
  (db.issues.filter (fun i => i.project_id == pid)).map (fun i => i.issue_number)

/-- `IssueService.create_issue`. Returns the new state and the created
row on success. -/
def createIssue (db : DB) (title : String) (description : Option String)
    (issue_type : IssueType) (priority : Priority) (project_id : Nat)
    (reporter : User) (assignee_id : Option Nat) : Except Err (DB × Issue) :=
  match db.findProject project_id with
  | none => .error .not_found
  | some project =>
    if ¬ issueServiceUserCanAccessProject reporter project then
      .error .forbidden
    else
      let assigneeCheck : Except Err Unit :=
        match assignee_id with
        | none => .ok ()
        | some aid =>
          match db.findUser aid with
          | none => .error .invalid_input
          | some assignee =>
            if ¬ assignee.is_active then .error .invalid_input else .ok ()
      match assigneeCheck with
      | .error e => .error e
      | .ok _ =>
        let max_number := projectMaxIssueNumber db project_id
        let next_number := max_number.getD 0 + 1
        let issue : Issue :=
          { id := db.next_id
            issue_number := next_number
            title := title.trim
            description := stripOrNone description
            issue_type := issue_type
            priority := priority
            status := IssueStatus.backlog
            project_id := project_id
            reporter_id := reporter.id
            assignee_id := assignee_id }
        .ok ({ db with issues := db.issues ++ [issue], next_id := db.next_id + 1 },
             issue)

/-- `IssueService.transition_issue_status`: fetch, permission check,
unconditional status write, commit, re-query. -/
def transitionIssueStatus (db : DB) (issue_id : Nat) (new_status : IssueStatus)
    (current_user : User) : Except Err (DB × Issue) :=
  match db.findIssue issue_id with
  | none => .error .not_found
  | some issue =>
    if ¬ issueServiceUserCanAccessIssue current_user issue then
      .error .forbidden
    else
      let db' := db.setIssue issue_id (fun i => { i with status := new_status })
      match db'.findIssue issue.id with
      | none => .error .no_result
      | some updated => .ok (db', updated)

/-- One entry of the free-form `updates` dict passed to
`IssueService.update_issue`; `other` stands for any field name outside the
handled chain, which the loop silently skips. `assignee_id` carries the
possibly-`None` user id; the remaining fields carry the raw string value. -/
inductive FieldUpdate where
  | title (v : String)
  | description (v : String)
  | assignee_id (v : Option Nat)
  | priority (v : String)
  | status (v : String)
  | other (field : String)
deriving DecidableEq, Repr

/-- One iteration of the `update_issue` field loop, acting on the loaded
issue row with id `iid`.

* `title` / `description`: empty-after-strip check, then a trimmed write.
* `assignee_id`: active-user check, then a raw write (the notification is
  fire-and-forget and leaves the store unchanged).
* `priority`: the source's invalid-value branch executes
  `print(f"... {new_status.value}")` where `new_status` is unbound, so an
  invalid value raises `NameError`, not an `HTTPException`; a valid value
  is written via `Priority(value)`.
* `status`: `IssueStatus(value)` raises `ValueError` on an invalid value;
  a valid one is delegated to `transition_issue_status`. -/
def applyIssueUpdate (db : DB) (iid : Nat) (current_user : User)
    (f : FieldUpdate) : Except Err DB :=
  match f with
  | .title v =>
    if v = "" ∨ v.trim = "" then .error .invalid_input
    else .ok (db.setIssue iid (fun i => { i with title := v.trim }))
  | .description v =>
    if v = "" ∨ v.trim = "" then .error .invalid_input
    else .ok (db.setIssue iid (fun i => { i with description := some v.trim }))
  | .assignee_id v =>
    match v with
    | none => .ok (db.setIssue iid (fun i => { i with assignee_id := none }))
    | some aid =>
      match db.findUser aid with
      | none => .error .invalid_input
      | some assignee =>
        if ¬ assignee.is_active then .error .invalid_input
        else .ok (db.setIssue iid (fun i => { i with assignee_id := some aid }))
  | .priority v =>
    if ¬ priorityValues.contains v then .error .py_name_error
    else .ok (db.setIssue iid (fun i =>
      { i with priority := (Priority.ofValue v).getD i.priority }))
  | .status v =>
    match IssueStatus.ofValue v with
    | none => .error .py_value_error
    | some s =>
      match transitionIssueStatus db iid s current_user with
      | .error e => .error e
      | .ok (db', _) => .ok db'
  | .other _ => .ok db

/-- The `for field, value in updates.items()` loop of `update_issue`. -/
def applyIssueUpdates (db : DB) (iid : Nat) (current_user : User) :
    List FieldUpdate → Except Err DB
  | [] => .ok db
  | f :: rest =>
    match applyIssueUpdate db iid current_user f with
    | .error e => .error e
    | .ok db' => applyIssueUpdates db' iid current_user rest

/-- `IssueService.update_issue`: fetch, permission check, field loop,
commit. -/
def updateIssue (db : DB) (issue_id : Nat) (updates : List FieldUpdate)
    (current_user : User) : Except Err DB :=
  match db.findIssue issue_id with
  | none => .error .not_found
  | some issue =>
    if ¬ issueServiceUserCanAccessIssue current_user issue then
      .error .forbidden
    else
      applyIssueUpdates db issue_id current_user updates

/-- The parameters of one `create_issue` call in a creation sequence. -/
structure CreateParams where
  title : String
  description : Option String
  issue_type : IssueType
  priority : Priority
deriving DecidableEq, Repr

/-- A sequence of `create_issue` calls into one project by one reporter,
each with no assignee, stopping at the first failure. -/
def createIssueSeq (db : DB) (pid : Nat) (reporter : User) :
    List CreateParams → Except Err DB
  | [] => .ok db
  | p :: rest =>
    match createIssue db p.title p.description p.issue_type p.priority pid
        reporter none with
    | .error e => .error e
    | .ok (db', _) => createIssueSeq db' pid reporter rest

/-! ### Decomposition of the `update_issue` field loop

Each loop iteration splits into a pure write on the stored row (the value
written never depends on the row's current state, except that an invalid
enum string leaves the field untouched — those cases are unreachable when
the iteration's validation passes) and a validation that reads only the
update value, the user table, and the row's existence. -/

/-- The pure write of one `update_issue` loop iteration. -/
def applyFieldPure (i : Issue) : FieldUpdate → Issue
  | .title v => { i with title := v.trim }
  | .description v => { i with description := some v.trim }
  | .assignee_id v => { i with assignee_id := v }
  | .priority v => { i with priority := (Priority.ofValue v).getD i.priority }
  | .status v => { i with status := (IssueStatus.ofValue v).getD i.status }
  | .other _ => i

/-- The validation of one `update_issue` loop iteration. -/
def fieldOK (users : List User) : FieldUpdate → Bool
  | .title v => !(v == "" || v.trim == "")
  | .description v => !(v == "" || v.trim == "")
  | .assignee_id none => true
  | .assignee_id (some aid) =>
    match users.find? (fun w => w.id == aid) with
    | none => false
    | some w => w.is_active
  | .priority v => priorityValues.contains v
  | .status v => (IssueStatus.ofValue v).isSome
  | .other _ => true

/-- Last title written by an update list, if any. -/
def wTitle : List FieldUpdate → Option String
  | [] => none
  | .title v :: L => some ((wTitle L).getD v.trim)
  | _ :: L => wTitle L

/-- Last description written by an update list, if any. -/
def wDescription : List FieldUpdate → Option (Option String)
  | [] => none
  | .description v :: L => some ((wDescription L).getD (some v.trim))
  | _ :: L => wDescription L

/-- Last assignee written by an update list, if any. -/
def wAssignee : List FieldUpdate → Option (Option Nat)
  | [] => none
  | .assignee_id v :: L => some ((wAssignee L).getD v)
  | _ :: L => wAssignee L

/-- Last priority written by an update list, if any (an invalid priority
string writes nothing). -/
def wPriority : List FieldUpdate → Option Priority
  | [] => none
  | .priority v :: L =>
    match Priority.ofValue v with
    | some pr => some ((wPriority L).getD pr)
    | none => wPriority L
  | _ :: L => wPriority L

/-- Last status written by an update list, if any (an invalid status
string writes nothing). -/
def wStatus : List FieldUpdate → Option IssueStatus
  | [] => none
  | .status v :: L =>
    match IssueStatus.ofValue v with
    | some s => some ((wStatus L).getD s)
    | none => wStatus L
  | _ :: L => wStatus L

/-! ### Concrete fixtures for evaluation -/

/-- A manager user, owner of the fixture project. -/
def mgrUser : User := { id := 5, role := .manager, is_active := true }

/-- A developer user. -/
def devUser : User := { id := 7, role := .developer, is_active := true }

/-- A project with key `DEMO`, owned by the manager. -/
def demoProject : Project :=
  { id := 1, name := some "Demo", key := "DEMO", description := none, owner_id := 5 }

/-- An issue in the `DEMO` project. -/
def fixtureIssue : Issue :=
  { id := 2, issue_number := 1, title := "Fix bug", description := none,
    issue_type := .task, status := .backlog, priority := .medium,
    project_id := 1, reporter_id := 5, assignee_id := none }

/-- Store holding the `DEMO` project and noone else. -/
def dbDemo : DB :=
  { users := [mgrUser], projects := [demoProject], issues := [], next_id := 2 }

/-- Store holding the `DEMO` project and one issue. -/
def dbWithIssue : DB :=
  { users := [mgrUser], projects := [demoProject], issues := [fixtureIssue],
    next_id := 3 }

/-- The state `dbWithIssue` after assigning its one issue to the
manager. -/
def dbWithIssueAssigned : DB :=
  { users := [mgrUser], projects := [demoProject],
    issues := [{ fixtureIssue with assignee_id := some 5 }], next_id := 3 }

/-- A project owned by the developer `devUser`. -/
def devOwnedProject : Project :=
  { id := 3, name := some "Owned", key := "OWN", description := none, owner_id := 7 }

/-- Store holding the developer-owned project. -/
def dbDevOwned : DB :=
  { users := [devUser, mgrUser], projects := [devOwnedProject], issues := [],
    next_id := 10 }

/-- Store with three issues in the `DEMO` project, exactly one `done`. -/
def dbStats : DB :=
  { users := [mgrUser], projects := [demoProject],
    issues :=
      [{ fixtureIssue with id := 2, issue_number := 1, status := .done },
       { fixtureIssue with id := 3, issue_number := 2, status := .backlog },
       { fixtureIssue with id := 4, issue_number := 3, status := .in_progress }],
    next_id := 9 }

/-! ### Basic lemmas -/

theorem issueServiceUserCanAccessProject_eq_true (u : User) (p : Project) :
    issueServiceUserCanAccessProject u p = true := by
  unfold issueServiceUserCanAccessProject
  by_cases h1 : u.role = Role.admin <;>
    by_cases h2 : u.role = Role.manager ∧ u.id = p.owner_id <;>
      simp [h1, h2]

/-- `find?` over an id-targeted row rewrite: the rewrite commutes with the
lookup as long as the rewrite preserves row ids. -/
theorem find?_map_setRow (l : List Issue) (iid : Nat) (g : Issue → Issue)
    (hg : ∀ i, (g i).id = i.id) :
    (l.map (fun i => if i.id == iid then g i else i)).find? (fun i => i.id == iid)
      = (l.find? (fun i => i.id == iid)).map g := by
  induction l with
  | nil => simp
  | cons a l ih =>
    simp only [List.map_cons]
    cases h : (a.id == iid) with
    | true =>
      have hga : ((g a).id == iid) = true := by rw [hg a]; exact h
      simp [List.find?, hga, h]
    | false =>
      have hga : ((g a).id == iid) = false := by rw [hg a]; exact h
      simpa [List.find?, hga, h] using ih

theorem findIssue_setIssue (db : DB) (iid : Nat) (g : Issue → Issue)
    (hg : ∀ i, (g i).id = i.id) :
    (db.setIssue iid g).findIssue iid = (db.findIssue iid).map g :=
  find?_map_setRow db.issues iid g hg

/-- An issue found under the id predicate has that id. -/
theorem findIssue_id (db : DB) (iid : Nat) (issue : Issue)
    (h : db.findIssue iid = some issue) : issue.id = iid := by
  have := List.find?_some h
  simpa using this

/-- Full characterization of a successful `transition_issue_status`: the
status write lands on the stored row, and the re-queried issue is the
found one with the new status. -/
theorem transitionIssueStatus_ok (db : DB) (iid : Nat) (ns : IssueStatus)
    (u : User) (issue : Issue) (h : db.findIssue iid = some issue) :
    transitionIssueStatus db iid ns u =
      .ok (db.setIssue iid (fun i => { i with status := ns }),
           { issue with status := ns }) := by
  have hid : issue.id = iid := findIssue_id db iid issue h
  have hfind := findIssue_setIssue db iid (fun i => { i with status := ns })
    (fun i => rfl)
  rw [h] at hfind
  simp [transitionIssueStatus, h, hid, hfind, issueServiceUserCanAccessIssue]

/-! ### Claim theorems -/

/-- C2: for every existing issue, every user (all users pass the service's
permission check, which is constantly true), and every target status, the
service-level `transition_issue_status` succeeds and sets the issue's
status to the target — no transition is rejected, including moves to an
earlier state. -/
theorem transition_always_succeeds (db : DB) (iid : Nat) (ns : IssueStatus)
    (u : User) (issue : Issue) (h : db.findIssue iid = some issue) :
    ∃ db' i', transitionIssueStatus db iid ns u = .ok (db', i') ∧
      i'.status = ns ∧ db'.findIssue iid = some i' := by
  refine ⟨db.setIssue iid (fun i => { i with status := ns }),
          { issue with status := ns },
          transitionIssueStatus_ok db iid ns u issue h, rfl, ?_⟩
  rw [findIssue_setIssue db iid (fun i => { i with status := ns }) (fun i => rfl), h]
  rfl

/-- Witness for C2: a backward move (`backlog` from an issue that could be
anywhere) on the concrete store succeeds. -/
theorem transition_always_succeeds_witness :
    ∃ db' i', transitionIssueStatus dbWithIssue 2 IssueStatus.to_do mgrUser
        = .ok (db', i') ∧
      i'.status = IssueStatus.to_do ∧ db'.findIssue 2 = some i' :=
  transition_always_succeeds dbWithIssue 2 IssueStatus.to_do mgrUser
    fixtureIssue (by rfl)

/-- C3: the entity-level helper `Issue.transition_status` refuses (returns
`False`, leaves the issue unchanged) exactly when the target is not `done`
and precedes the current status in the order backlog < to_do <
in_progress < done; in every other case it writes the status and returns
`True`. -/
theorem entity_transition_forward_only (i : Issue) (ns : IssueStatus) :
    (i.transition_status ns = (false, i) ↔
      ns ≠ IssueStatus.done ∧ statusIndex ns < statusIndex i.status) ∧
    (¬ (ns ≠ IssueStatus.done ∧ statusIndex ns < statusIndex i.status) →
      i.transition_status ns = (true, { i with status := ns })) := by
  by_cases h : ns ≠ IssueStatus.done ∧ statusIndex ns < statusIndex i.status
  · constructor
    · simp [Issue.transition_status, h]
    · intro hc; exact absurd h hc
  · constructor
    · simp [Issue.transition_status, h]
    · intro _; simp [Issue.transition_status, h]

/-- Witness for C3: moving an `in_progress` issue back to `to_do` at the
entity level is refused. -/
theorem entity_transition_forward_only_witness :
    (({ fixtureIssue with status := IssueStatus.in_progress }).transition_status
        IssueStatus.to_do
      = (false, { fixtureIssue with status := IssueStatus.in_progress }) ↔
      IssueStatus.to_do ≠ IssueStatus.done ∧
        statusIndex IssueStatus.to_do
          < statusIndex ({ fixtureIssue with status := IssueStatus.in_progress }).status) ∧
    (¬ (IssueStatus.to_do ≠ IssueStatus.done ∧
        statusIndex IssueStatus.to_do
          < statusIndex ({ fixtureIssue with status := IssueStatus.in_progress }).status) →
      ({ fixtureIssue with status := IssueStatus.in_progress }).transition_status
          IssueStatus.to_do
        = (true, { { fixtureIssue with status := IssueStatus.in_progress } with
                     status := IssueStatus.to_do })) :=
  entity_transition_forward_only
    { fixtureIssue with status := IssueStatus.in_progress } IssueStatus.to_do

/-- C10: when the project id resolves to no project, `get_project_stats`
reports `Forbidden`, not `NotFound` — the existence check and the
permission check are one folded condition. -/
theorem stats_missing_project_forbidden (db : DB) (pid : Nat) (u : User)
    (h : db.findProject pid = none) :
    getProjectStats db pid u = .error .forbidden ∧
      getProjectStats db pid u ≠ .error .not_found := by
  unfold getProjectStats
  rw [h]
  exact ⟨rfl, by simp⟩

/-- Witness for C10: asking for stats of project 99, which does not exist
in the concrete store, yields `Forbidden`. -/
theorem stats_missing_project_forbidden_witness :
    getProjectStats dbDemo 99 mgrUser = .error .forbidden ∧
      getProjectStats dbDemo 99 mgrUser ≠ .error .not_found :=
  stats_missing_project_forbidden dbDemo 99 mgrUser (by rfl)

/-- C6 (code bug): updating an existing issue with the unknown priority
value `"urgent"` does not fail with `InvalidInput`; the source's
invalid-priority branch evaluates `new_status.value` with `new_status`
unbound, raising an uncaught `NameError` instead of the documented
validation error. -/
theorem update_invalid_priority_name_error :
    updateIssue dbWithIssue 2 [FieldUpdate.priority "urgent"] mgrUser
        = .error .py_name_error ∧
      updateIssue dbWithIssue 2 [FieldUpdate.priority "urgent"] mgrUser
        ≠ .error .invalid_input ∧
      updateIssue dbWithIssue 2 [FieldUpdate.priority "high"] mgrUser
        = .ok (dbWithIssue.setIssue 2 (fun i => { i with priority := Priority.high })) := by
  refine ⟨by rfl, by decide, by rfl⟩

/-- Counterexample to C5 as stated: a developer who owns the project is
*not* rejected — `_user_can_access_project` falls through to
`user.id == project.owner_id`, so the non-manager owner passes the
permission check and `update_project` / `delete_project` do not raise
`Forbidden`. -/
theorem owner_developer_not_forbidden :
    devUser.role ≠ Role.admin ∧
      ¬ (devUser.role = Role.manager ∧ devUser.id = devOwnedProject.owner_id) ∧
      projectServiceUserCanAccessProject devUser devOwnedProject = true ∧
      updateProject dbDevOwned 3 [] devUser ≠ .error .forbidden ∧
      deleteProject dbDevOwned 3 devUser ≠ .error .forbidden := by
  decide

/-- C5 (amended): the permission check of `update_project` and
`delete_project` succeeds exactly when the user's role is admin or the
user is the project's owner (of any role); equivalently, the manager
clause is subsumed by the trailing owner check. -/
theorem manage_project_admin_or_owner (u : User) (p : Project) :
    (projectServiceUserCanAccessProject u p = true ↔
      u.role = Role.admin ∨ u.id = p.owner_id) ∧
    ∀ (db : DB) (pid : Nat), db.findProject pid = some p →
      ((updateProject db pid [] u = .error .forbidden ↔
          ¬ (u.role = Role.admin ∨ u.id = p.owner_id)) ∧
       (deleteProject db pid u = .error .forbidden ↔
          ¬ (u.role = Role.admin ∨ u.id = p.owner_id))) := by
  have hacc : projectServiceUserCanAccessProject u p = true ↔
      u.role = Role.admin ∨ u.id = p.owner_id := by
    unfold projectServiceUserCanAccessProject
    by_cases h1 : u.role = Role.admin
    · simp [h1]
    · rw [if_neg h1]
      by_cases h2 : u.role = Role.manager ∧ p.owner_id = u.id
      · rw [if_pos h2]
        simp [h1]
        exact h2.2.symm
      · rw [if_neg h2]
        simp [h1, beq_iff_eq]
  refine ⟨hacc, fun db pid h => ?_⟩
  constructor
  · unfold updateProject
    rw [h]
    by_cases hp : projectServiceUserCanAccessProject u p = true
    · simp [hp, applyProjUpdates, hacc.mp hp]
    · have : ¬ (u.role = Role.admin ∨ u.id = p.owner_id) :=
        fun hc => hp (hacc.mpr hc)
      simp [hp, this]
  · unfold deleteProject
    rw [h]
    by_cases hp : projectServiceUserCanAccessProject u p = true
    · simp [hp, hacc.mp hp]
    · have : ¬ (u.role = Role.admin ∨ u.id = p.owner_id) :=
        fun hc => hp (hacc.mpr hc)
      simp [hp, this]

/-- C4: for an admin or manager caller, `create_project` validates the
key after uppercasing and trimming — `InvalidInput` for an empty key, a
non-ASCII-alphanumeric character, or more than 10 characters; `Conflict`
when the key is case-insensitively taken; otherwise it persists the
project with the uppercased key and trimmed name/description. -/
theorem create_project_validation (db : DB) (name key : String)
    (desc : Option String) (owner : User)
    (hrole : owner.role = Role.admin ∨ owner.role = Role.manager) :
    (createProject db name key desc owner = .error .invalid_input ↔
      (key.toUpper.trim = "" ∨ ¬ key.toUpper.trim.all pyIsAsciiAlnum = true ∨
        key.toUpper.trim.length > 10)) ∧
    ((key.toUpper.trim ≠ "" ∧ key.toUpper.trim.all pyIsAsciiAlnum = true ∧
        ¬ key.toUpper.trim.length > 10) →
      ((createProject db name key desc owner = .error .conflict ↔
          db.projects.any (fun p => p.key.toLower == key.toUpper.trim.toLower) = true) ∧
       (db.projects.any (fun p => p.key.toLower == key.toUpper.trim.toLower) = false →
          ∃ db' proj, createProject db name key desc owner = .ok (db', proj) ∧
            proj.key = key.toUpper.trim ∧ proj.name = some name.trim ∧
            proj.description = stripOrNone desc ∧ proj.owner_id = owner.id ∧
            db'.projects = db.projects ++ [proj] ∧
            db'.issues = db.issues))) := by
  unfold createProject
  rw [if_neg (not_not_intro hrole)]
  dsimp only
  by_cases h1 : key.toUpper.trim = ""
  · rw [if_pos h1]
    exact ⟨by simp [h1], fun hv => absurd h1 hv.1⟩
  · rw [if_neg h1]
    by_cases h2 : key.toUpper.trim.all pyIsAsciiAlnum = true
    · rw [if_neg (not_not_intro h2)]
      by_cases h3 : key.toUpper.trim.length > 10
      · rw [if_pos h3]
        exact ⟨by simp [h3], fun hv => absurd h3 hv.2.2⟩
      · rw [if_neg h3]
        by_cases h4 : db.projects.any
            (fun p => p.key.toLower == key.toUpper.trim.toLower) = true
        · rw [if_pos h4]
          refine ⟨by simp [h1, h2, h3], fun _ => ⟨by simp [h4], fun hfalse => ?_⟩⟩
          rw [h4] at hfalse
          exact absurd hfalse (by simp)
        · rw [if_neg h4]
          refine ⟨by simp [h1, h2, h3], fun _ => ⟨by simp [h4], fun _ => ?_⟩⟩
          exact ⟨_, _, rfl, rfl, rfl, rfl, rfl, rfl, rfl⟩
    · rw [if_pos h2]
      exact ⟨by simp [h2], fun hv => absurd hv.2.1 h2⟩

/-- Witness for C4: creating key `"demo "` (lowercase, padded) on the
fresh store by the manager, where normalization yields `DEMO`. -/
theorem create_project_validation_witness :
    (mgrUser.role = Role.admin ∨ mgrUser.role = Role.manager) ∧
    (createProject dbDemo "Demo two" "demo2 " none mgrUser = .error .invalid_input ↔
      ("demo2 ".toUpper.trim = "" ∨
        ¬ "demo2 ".toUpper.trim.all pyIsAsciiAlnum = true ∨
        "demo2 ".toUpper.trim.length > 10)) := by
  refine ⟨Or.inr rfl, ?_⟩
  exact (create_project_validation dbDemo "Demo two" "demo2 " none mgrUser
    (Or.inr rfl)).1

/-- Partition of a project's issues by status: the per-status counts of
`get_project_stats` sum to the total number of the project's issues. -/
theorem count_by_status (l : List Issue) (pid : Nat) :
    (issueStatusList.map (fun s =>
        (l.filter (fun i => i.project_id == pid && i.status == s)).length)).sum
      = (l.filter (fun i => i.project_id == pid)).length := by
  induction l with
  | nil => simp [issueStatusList]
  | cons a l ih =>
    simp only [issueStatusList, List.map_cons, List.map_nil, List.sum_cons,
      List.sum_nil] at ih ⊢
    cases hp : (a.project_id == pid) with
    | false =>
      simp only [List.filter_cons, hp, Bool.false_and, if_neg (by simp : ¬ (false = true))]
      omega
    | true =>
      cases hs : a.status <;>
        · simp [List.filter_cons, hp, hs, beq_iff_eq]
          omega

/-- C7: for an existing project and a permitted caller,
`get_project_stats` reports `total` = number of the project's issues,
`completed` = number of its `done` issues, and `completion_rate` =
`completed / total` for a nonempty project and `0` otherwise. -/
theorem project_stats_totals (db : DB) (pid : Nat) (u : User)
    (project : Project) (hfind : db.findProject pid = some project)
    (hperm : ¬ (¬ (u.role = Role.admin ∨ u.role = Role.manager) ∧
      u.id ≠ project.owner_id)) :
    ∃ stats, getProjectStats db pid u = .ok stats ∧
      stats.total = (db.issues.filter (fun i => i.project_id == pid)).length ∧
      stats.completed =
        (db.issues.filter
          (fun i => i.project_id == pid && i.status == IssueStatus.done)).length ∧
      stats.completion_rate =
        (if stats.total > 0 then (stats.completed : ℚ) / (stats.total : ℚ) else 0) := by
  simp only [getProjectStats, hfind]
  rw [if_neg hperm]
  refine ⟨_, rfl, ?_, rfl, rfl⟩
  exact count_by_status db.issues pid

/-- Witness for C7: the concrete store with 3 issues of which exactly one
is `done` yields total 3, completed 1, completion rate `1/3`. -/
theorem project_stats_totals_witness :
    (∃ stats, getProjectStats dbStats 1 mgrUser = .ok stats ∧
      stats.total = (dbStats.issues.filter (fun i => i.project_id == 1)).length ∧
      stats.completed =
        (dbStats.issues.filter
          (fun i => i.project_id == 1 && i.status == IssueStatus.done)).length ∧
      stats.completion_rate =
        (if stats.total > 0 then (stats.completed : ℚ) / (stats.total : ℚ) else 0)) ∧
    (∃ stats, getProjectStats dbStats 1 mgrUser = .ok stats ∧
      stats.total = 3 ∧ stats.completed = 1 ∧ stats.completion_rate = 1 / 3) := by
  refine ⟨project_stats_totals dbStats 1 mgrUser demoProject (by rfl)
    (by simp [mgrUser]), ?_⟩
  have ht : (List.map (statusCount dbStats 1) issueStatusList).sum = 3 := by rfl
  have hc : statusCount dbStats 1 IssueStatus.done = 1 := by rfl
  refine ⟨_, rfl, rfl, rfl, ?_⟩
  dsimp only
  rw [ht, hc]
  norm_num

/-- Field extraction from a successful `create_issue`: the stored row's
defaults and its allocated number. -/
theorem createIssue_fields (db : DB) (title : String)
    (description : Option String) (issue_type : IssueType) (priority : Priority)
    (project_id : Nat) (reporter : User) (assignee_id : Option Nat)
    (db' : DB) (issue : Issue)
    (h : createIssue db title description issue_type priority project_id
      reporter assignee_id = .ok (db', issue)) :
    issue.status = IssueStatus.backlog ∧ issue.reporter_id = reporter.id ∧
      issue.title = title.trim ∧ issue.description = stripOrNone description ∧
      issue.priority = priority ∧
      issue.issue_number = (projectMaxIssueNumber db project_id).getD 0 + 1 := by
  cases hf : db.findProject project_id with
  | none =>
    simp only [createIssue, hf] at h
    exact absurd h (by simp)
  | some project =>
    simp only [createIssue, hf,
      if_neg (not_not_intro (issueServiceUserCanAccessProject_eq_true reporter project))] at h
    cases assignee_id with
    | none =>
      simp only [Except.ok.injEq, Prod.mk.injEq] at h
      obtain ⟨-, rfl⟩ := h
      exact ⟨rfl, rfl, rfl, rfl, rfl, rfl⟩
    | some aid =>
      cases hu : db.findUser aid with
      | none =>
        simp only [hu] at h
        exact absurd h (by simp)
      | some assignee =>
        simp only [hu] at h
        by_cases hact : assignee.is_active = true
        · simp only [if_neg (not_not_intro hact)] at h
          simp only [Except.ok.injEq, Prod.mk.injEq] at h
          obtain ⟨-, rfl⟩ := h
          exact ⟨rfl, rfl, rfl, rfl, rfl, rfl⟩
        · simp only [if_pos hact] at h
          exact absurd h (by simp)

/-- C8: a successful `create_issue` stores status `backlog`, the creating
user as reporter, the trimmed title, the trimmed (or absent) description,
and the passed priority. -/
theorem create_issue_defaults (db : DB) (title : String)
    (description : Option String) (issue_type : IssueType) (priority : Priority)
    (project_id : Nat) (reporter : User) (assignee_id : Option Nat)
    (db' : DB) (issue : Issue)
    (h : createIssue db title description issue_type priority project_id
      reporter assignee_id = .ok (db', issue)) :
    issue.status = IssueStatus.backlog ∧ issue.reporter_id = reporter.id ∧
      issue.title = title.trim ∧ issue.description = stripOrNone description ∧
      issue.priority = priority :=
  have hx := createIssue_fields db title description issue_type priority
    project_id reporter assignee_id db' issue h
  ⟨hx.1, hx.2.1, hx.2.2.1, hx.2.2.2.1, hx.2.2.2.2.1⟩

/-- Witness for C8: creating `"Fix bug"` in the fresh `DEMO` project
produces display key `DEMO-1`, status `backlog`, priority `medium`. -/
theorem create_issue_defaults_witness :
    (∃ db' issue,
      createIssue dbDemo " Fix bug " none IssueType.task Priority.medium 1
          mgrUser none = .ok (db', issue) ∧
      issue.status = IssueStatus.backlog ∧ issue.reporter_id = mgrUser.id ∧
      issue.title = " Fix bug ".trim ∧ issue.description = stripOrNone none ∧
      issue.priority = Priority.medium ∧
      issue.issue_number = (projectMaxIssueNumber dbDemo 1).getD 0 + 1 ∧
      issueDisplayKey demoProject issue = "DEMO-1") := by
  refine ⟨_, _, rfl, ?_⟩
  have h := create_issue_defaults dbDemo " Fix bug " none IssueType.task
    Priority.medium 1 mgrUser none _ _ rfl
  exact ⟨h.1, h.2.1, h.2.2.1, h.2.2.2.1, h.2.2.2.2, rfl, rfl⟩

theorem listMax_range' (k : Nat) : ∀ s : Nat,
    listMax (List.range' s k) = if k = 0 then none else some (s + k - 1) := by
  induction k with
  | zero => intro s; rfl
  | succ k ih =>
    intro s
    rw [List.range'_succ, listMax, ih (s + 1)]
    cases k with
    | zero => simp
    | succ k' =>
      simp only [Nat.succ_ne_zero, if_false, Option.some.injEq]
      have hle : s ≤ s + 1 + (k' + 1) - 1 := by omega
      rw [show Nat.max s (s + 1 + (k' + 1) - 1) = s + 1 + (k' + 1) - 1 from
        Nat.max_eq_right hle]
      omega

/-- A `create_issue` call with no assignee on an existing project always
succeeds, appending a row numbered `max + 1`. -/
theorem createIssue_none_ok (db : DB) (t : String) (d : Option String)
    (ty : IssueType) (pr : Priority) (pid : Nat) (rep : User)
    (project : Project) (hf : db.findProject pid = some project) :
    createIssue db t d ty pr pid rep none =
      .ok ({ db with
               issues := db.issues ++
                 [{ id := db.next_id,
                    issue_number := (projectMaxIssueNumber db pid).getD 0 + 1,
                    title := t.trim, description := stripOrNone d,
                    issue_type := ty, priority := pr,
                    status := IssueStatus.backlog, project_id := pid,
                    reporter_id := rep.id, assignee_id := none }],
               next_id := db.next_id + 1 },
            { id := db.next_id,
              issue_number := (projectMaxIssueNumber db pid).getD 0 + 1,
              title := t.trim, description := stripOrNone d,
              issue_type := ty, priority := pr,
              status := IssueStatus.backlog, project_id := pid,
              reporter_id := rep.id, assignee_id := none }) := by
  simp only [createIssue, hf,
    if_neg (not_not_intro (issueServiceUserCanAccessProject_eq_true rep project))]

/-- Invariant of a creation sequence: starting from numbers `[1, …, k]`,
each successful creation appends the next number. -/
theorem createIssueSeq_numbers (pid : Nat) (reporter : User) :
    ∀ (ps : List CreateParams) (db : DB) (k : Nat) (project : Project),
      db.findProject pid = some project →
      projectNumbers db pid = List.range' 1 k →
      ∃ db', createIssueSeq db pid reporter ps = .ok db' ∧
        projectNumbers db' pid = List.range' 1 (k + ps.length) := by
  intro ps
  induction ps with
  | nil =>
    intro db k project hf hn
    exact ⟨db, rfl, by simpa using hn⟩
  | cons p ps ih =>
    intro db k project hf hn
    have hmax : projectMaxIssueNumber db pid = listMax (List.range' 1 k) := by
      rw [show projectMaxIssueNumber db pid = listMax (projectNumbers db pid) from rfl, hn]
    have hnext : (projectMaxIssueNumber db pid).getD 0 + 1 = k + 1 := by
      rw [hmax, listMax_range' k 1]
      cases k with
      | zero => rfl
      | succ k' =>
        simp only [Nat.succ_ne_zero, if_false, Option.getD_some]
        omega
    simp only [createIssueSeq,
      createIssue_none_ok db p.title p.description p.issue_type p.priority pid
        reporter project hf]
    have hf1 :
        (DB.findProject
          { db with
              issues := db.issues ++
                [{ id := db.next_id,
                   issue_number := (projectMaxIssueNumber db pid).getD 0 + 1,
                   title := p.title.trim, description := stripOrNone p.description,
                   issue_type := p.issue_type, priority := p.priority,
                   status := IssueStatus.backlog, project_id := pid,
                   reporter_id := reporter.id, assignee_id := none }],
              next_id := db.next_id + 1 } pid) = some project := hf
    have hn1 :
        projectNumbers
          { db with
              issues := db.issues ++
                [{ id := db.next_id,
                   issue_number := (projectMaxIssueNumber db pid).getD 0 + 1,
                   title := p.title.trim, description := stripOrNone p.description,
                   issue_type := p.issue_type, priority := p.priority,
                   status := IssueStatus.backlog, project_id := pid,
                   reporter_id := reporter.id, assignee_id := none }],
              next_id := db.next_id + 1 } pid = List.range' 1 (k + 1) := by
      have happ : List.range' 1 k ++ [1 + k] = List.range' 1 (1 + k) := by
        simpa [List.range'_succ] using List.range'_append_1 1 k 1
      calc projectNumbers _ pid
          = projectNumbers db pid ++ [(projectMaxIssueNumber db pid).getD 0 + 1] := by
            simp [projectNumbers, List.filter_append, List.map_append]
        _ = List.range' 1 k ++ [k + 1] := by rw [hn, hnext]
        _ = List.range' 1 (k + 1) := by rw [Nat.add_comm k 1]; exact happ
    obtain ⟨db', hseq, hnum⟩ := ih _ (k + 1) project hf1 hn1
    refine ⟨db', hseq, ?_⟩
    rw [hnum]
    congr 1
    simp only [List.length_cons]
    omega

/-- C1: `create_issue` allocates `issue_number` = 1 + the current maximum
among the project's issues (1 when none exist), and a sequence of
successful creations into an initially empty project yields exactly the
numbers `[1, …, N]` — no duplicates, no gaps. -/
theorem issue_numbers_sequential :
    (∀ (db : DB) (t : String) (d : Option String) (ty : IssueType)
       (pr : Priority) (pid : Nat) (rep : User) (aid : Option Nat)
       (db' : DB) (issue : Issue),
       createIssue db t d ty pr pid rep aid = .ok (db', issue) →
       issue.issue_number = (projectMaxIssueNumber db pid).getD 0 + 1) ∧
    (∀ (db : DB) (pid : Nat) (rep : User) (ps : List CreateParams)
       (project : Project),
       db.findProject pid = some project →
       projectNumbers db pid = [] →
       ∃ db', createIssueSeq db pid rep ps = .ok db' ∧
         projectNumbers db' pid = List.range' 1 ps.length) := by
  constructor
  · intro db t d ty pr pid rep aid db' issue h
    exact (createIssue_fields db t d ty pr pid rep aid db' issue h).2.2.2.2.2
  · intro db pid rep ps project hf hn
    have := createIssueSeq_numbers pid rep ps db 0 project hf (by simpa using hn)
    simpa using this

/-- Witness for C1: two creations into the fresh `DEMO` project produce
issue numbers `[1, 2]`. -/
theorem issue_numbers_sequential_witness :
    (∃ db', createIssueSeq dbDemo 1 mgrUser
        [{ title := "A", description := none, issue_type := .task,
           priority := .medium },
         { title := "B", description := none, issue_type := .bug,
           priority := .high }] = .ok db' ∧
      projectNumbers db' 1 = List.range' 1 2) ∧
    List.range' 1 2 = [1, 2] := by
  constructor
  · exact issue_numbers_sequential.2 dbDemo 1 mgrUser
      [{ title := "A", description := none, issue_type := .task,
         priority := .medium },
       { title := "B", description := none, issue_type := .bug,
         priority := .high }] demoProject (by rfl) (by rfl)
  · rfl

/-- Witness for the amended C5: instantiated at the manager (a non-owner
of the developer's project) on the concrete store. -/
theorem manage_project_admin_or_owner_witness :
    (projectServiceUserCanAccessProject mgrUser devOwnedProject = true ↔
      mgrUser.role = Role.admin ∨ mgrUser.id = devOwnedProject.owner_id) ∧
    ((updateProject dbDevOwned 3 [] mgrUser = .error .forbidden ↔
        ¬ (mgrUser.role = Role.admin ∨ mgrUser.id = devOwnedProject.owner_id)) ∧
     (deleteProject dbDevOwned 3 mgrUser = .error .forbidden ↔
        ¬ (mgrUser.role = Role.admin ∨ mgrUser.id = devOwnedProject.owner_id))) :=
  ⟨(manage_project_admin_or_owner mgrUser devOwnedProject).1,
   (manage_project_admin_or_owner mgrUser devOwnedProject).2 dbDevOwned 3 (by rfl)⟩

/-! ### Idempotence of the `update_issue` field loop -/

theorem getD_getD {α : Type} (o : Option α) (d : α) :
    o.getD (o.getD d) = o.getD d := by
  cases o <;> rfl

/-- The field loop's writes, characterized: the final row is the original
one with each written field overwritten by its last write. -/
theorem foldPure_char (L : List FieldUpdate) : ∀ i : Issue,
    L.foldl applyFieldPure i =
      { i with title := (wTitle L).getD i.title,
               description := (wDescription L).getD i.description,
               priority := (wPriority L).getD i.priority,
               status := (wStatus L).getD i.status,
               assignee_id := (wAssignee L).getD i.assignee_id } := by
  induction L with
  | nil => intro i; simp [wTitle, wDescription, wPriority, wStatus, wAssignee]
  | cons f L ih =>
    intro i
    rw [List.foldl_cons, ih (applyFieldPure i f)]
    cases f with
    | title v =>
      simp [applyFieldPure, wTitle, wDescription, wPriority, wStatus, wAssignee]
    | description v =>
      simp [applyFieldPure, wTitle, wDescription, wPriority, wStatus, wAssignee]
    | assignee_id v =>
      simp [applyFieldPure, wTitle, wDescription, wPriority, wStatus, wAssignee]
    | priority v =>
      cases hv : Priority.ofValue v <;>
        simp [applyFieldPure, hv, wTitle, wDescription, wPriority, wStatus, wAssignee]
    | status v =>
      cases hv : IssueStatus.ofValue v <;>
        simp [applyFieldPure, hv, wTitle, wDescription, wPriority, wStatus, wAssignee]
    | other s =>
      simp [applyFieldPure, wTitle, wDescription, wPriority, wStatus, wAssignee]

/-- Replaying the same writes a second time changes nothing. -/
theorem foldPure_idem (L : List FieldUpdate) (i : Issue) :
    L.foldl applyFieldPure (L.foldl applyFieldPure i) = L.foldl applyFieldPure i := by
  rw [foldPure_char L i, foldPure_char L]
  simp [getD_getD]

theorem applyFieldPure_id (i : Issue) (f : FieldUpdate) :
    (applyFieldPure i f).id = i.id := by
  cases f <;> rfl

theorem foldPure_id (L : List FieldUpdate) : ∀ i : Issue,
    (L.foldl applyFieldPure i).id = i.id := by
  induction L with
  | nil => intro i; rfl
  | cons f L ih =>
    intro i
    rw [List.foldl_cons, ih (applyFieldPure i f)]
    exact applyFieldPure_id i f

theorem setIssue_id_fun (db : DB) (iid : Nat) :
    db.setIssue iid (fun i => i) = db := by
  simp [DB.setIssue]

/-- Composing two id-targeted row rewrites. -/
theorem setIssue_setIssue (db : DB) (iid : Nat) (g g' : Issue → Issue)
    (hg : ∀ i, (g i).id = i.id) :
    (db.setIssue iid g).setIssue iid g' = db.setIssue iid (fun i => g' (g i)) := by
  have key : ∀ b : Issue,
      (if (if b.id == iid then g b else b).id == iid
       then g' (if b.id == iid then g b else b)
       else (if b.id == iid then g b else b))
        = if b.id == iid then g' (g b) else b := by
    intro b
    by_cases hb : b.id = iid
    · simp [hb, hg b]
    · simp [hb]
  have key2 : ∀ l : List Issue,
      (l.map (fun i => if i.id == iid then g i else i)).map
          (fun i => if i.id == iid then g' i else i)
        = l.map (fun i => if i.id == iid then g' (g i) else i) := by
    intro l
    induction l with
    | nil => rfl
    | cons a l ih2 => simp only [List.map_cons, ih2, key a]
  simp only [DB.setIssue]
  rw [key2 db.issues]

theorem findIssue_setIssue_isSome (db : DB) (iid : Nat) (g : Issue → Issue)
    (hg : ∀ i, (g i).id = i.id) :
    ((db.setIssue iid g).findIssue iid).isSome = (db.findIssue iid).isSome := by
  rw [findIssue_setIssue db iid g hg]
  cases db.findIssue iid <;> rfl

/-- A validated loop iteration performs exactly its pure write. -/
theorem applyIssueUpdate_ok (db : DB) (iid : Nat) (u : User) (f : FieldUpdate)
    (hi : (db.findIssue iid).isSome = true) (hok : fieldOK db.users f = true) :
    applyIssueUpdate db iid u f =
      .ok (db.setIssue iid (fun i => applyFieldPure i f)) := by
  cases f with
  | title v =>
    have hc : ¬ (v = "" ∨ v.trim = "") := by simpa [fieldOK, not_or] using hok
    simp [applyIssueUpdate, hc, applyFieldPure]
  | description v =>
    have hc : ¬ (v = "" ∨ v.trim = "") := by simpa [fieldOK, not_or] using hok
    simp [applyIssueUpdate, hc, applyFieldPure]
  | assignee_id v =>
    cases v with
    | none => simp [applyIssueUpdate, applyFieldPure]
    | some aid =>
      cases hu : db.users.find? (fun w => w.id == aid) with
      | none =>
        rw [show fieldOK db.users (FieldUpdate.assignee_id (some aid)) =
              (match db.users.find? (fun w => w.id == aid) with
               | none => false
               | some w => w.is_active) from rfl, hu] at hok
        exact absurd hok (by simp)
      | some w =>
        rw [show fieldOK db.users (FieldUpdate.assignee_id (some aid)) =
              (match db.users.find? (fun w => w.id == aid) with
               | none => false
               | some w => w.is_active) from rfl, hu] at hok
        have hact : w.is_active = true := hok
        simp [applyIssueUpdate, DB.findUser, hu, hact, applyFieldPure]
  | priority v =>
    have hc : priorityValues.contains v = true := hok
    have hm : v ∈ priorityValues := by simpa using hc
    simp [applyIssueUpdate, hc, hm, applyFieldPure]
  | status v =>
    have hc : (IssueStatus.ofValue v).isSome = true := hok
    cases hv : IssueStatus.ofValue v with
    | none => rw [hv] at hc; exact absurd hc (by simp)
    | some s =>
      obtain ⟨issue, hissue⟩ : ∃ j, db.findIssue iid = some j := by
        cases hj : db.findIssue iid with
        | none => rw [hj] at hi; exact absurd hi (by simp)
        | some j => exact ⟨j, rfl⟩
      simp only [applyIssueUpdate, hv,
        transitionIssueStatus_ok db iid s u issue hissue]
      simp [applyFieldPure, hv]
  | other s =>
    simp [applyIssueUpdate, applyFieldPure, setIssue_id_fun]

/-- A loop iteration that succeeded passed its validation. -/
theorem applyIssueUpdate_fieldOK (db : DB) (iid : Nat) (u : User)
    (f : FieldUpdate) (db1 : DB)
    (h : applyIssueUpdate db iid u f = .ok db1) : fieldOK db.users f = true := by
  cases f with
  | title v =>
    by_cases hc : v = "" ∨ v.trim = ""
    · simp only [applyIssueUpdate, if_pos hc] at h
      exact absurd h (by simp)
    · obtain ⟨h1, h2⟩ := not_or.mp hc
      simp [fieldOK, h1, h2]
  | description v =>
    by_cases hc : v = "" ∨ v.trim = ""
    · simp only [applyIssueUpdate, if_pos hc] at h
      exact absurd h (by simp)
    · obtain ⟨h1, h2⟩ := not_or.mp hc
      simp [fieldOK, h1, h2]
  | assignee_id v =>
    cases v with
    | none => rfl
    | some aid =>
      cases hu : db.users.find? (fun w => w.id == aid) with
      | none =>
        simp only [applyIssueUpdate, DB.findUser, hu] at h
        exact absurd h (by simp)
      | some w =>
        by_cases hact : w.is_active = true
        · rw [show fieldOK db.users (FieldUpdate.assignee_id (some aid)) =
                (match db.users.find? (fun x => x.id == aid) with
                 | none => false
                 | some x => x.is_active) from rfl, hu]
          exact hact
        · simp only [applyIssueUpdate, DB.findUser, hu, if_pos hact] at h
          exact absurd h (by simp)
  | priority v =>
    by_cases hc : priorityValues.contains v = true
    · exact hc
    · simp only [applyIssueUpdate] at h
      rw [if_pos hc] at h
      exact absurd h (by simp)
  | status v =>
    cases hv : IssueStatus.ofValue v with
    | none =>
      simp only [applyIssueUpdate, hv] at h
      exact absurd h (by simp)
    | some s => simp [fieldOK, hv]
  | other s => rfl

/-- A fully validated field loop performs exactly the composite pure
write. -/
theorem applyIssueUpdates_char (iid : Nat) (u : User) :
    ∀ (L : List FieldUpdate) (db : DB),
      (db.findIssue iid).isSome = true →
      (∀ f ∈ L, fieldOK db.users f = true) →
      applyIssueUpdates db iid u L =
        .ok (db.setIssue iid (fun i => L.foldl applyFieldPure i)) := by
  intro L
  induction L with
  | nil =>
    intro db hi hok
    simp [applyIssueUpdates, setIssue_id_fun]
  | cons f L ih =>
    intro db hi hok
    simp only [applyIssueUpdates,
      applyIssueUpdate_ok db iid u f hi (hok f (List.mem_cons_self f L))]
    have hi1 : ((db.setIssue iid (fun i => applyFieldPure i f)).findIssue iid).isSome
        = true := by
      rw [findIssue_setIssue_isSome db iid _ (fun i => applyFieldPure_id i f)]
      exact hi
    have hok1 : ∀ g ∈ L,
        fieldOK (db.setIssue iid (fun i => applyFieldPure i f)).users g = true :=
      fun g hg => hok g (List.mem_cons_of_mem f hg)
    rw [ih _ hi1 hok1]
    rw [setIssue_setIssue db iid _ _ (fun i => applyFieldPure_id i f)]
    rfl

/-- A field loop that succeeded passed every iteration's validation. -/
theorem applyIssueUpdates_fieldOK (iid : Nat) (u : User) :
    ∀ (L : List FieldUpdate) (db db' : DB),
      (db.findIssue iid).isSome = true →
      applyIssueUpdates db iid u L = .ok db' →
      ∀ f ∈ L, fieldOK db.users f = true := by
  intro L
  induction L with
  | nil => intro db db' _ _ f hf; exact absurd hf (List.not_mem_nil f)
  | cons g L ih =>
    intro db db' hi h f hf
    cases happ : applyIssueUpdate db iid u g with
    | error e =>
      simp only [applyIssueUpdates, happ] at h
      exact absurd h (by simp)
    | ok db1 =>
      have hokg := applyIssueUpdate_fieldOK db iid u g db1 happ
      have hshape := applyIssueUpdate_ok db iid u g hi hokg
      rw [happ] at hshape
      have hdb1 : db1 = db.setIssue iid (fun i => applyFieldPure i g) := by
        injection hshape with h1
      rcases List.mem_cons.mp hf with rfl | hfl
      · exact hokg
      · have hi1 : (db1.findIssue iid).isSome = true := by
          rw [hdb1, findIssue_setIssue_isSome db iid _ (fun i => applyFieldPure_id i g)]
          exact hi
        have h1 : applyIssueUpdates db1 iid u L = .ok db' := by
          simp only [applyIssueUpdates, happ] at h
          exact h
        have hrec := ih db1 db' hi1 h1 f hfl
        rw [hdb1] at hrec
        exact hrec

/-- C9: `update_issue` is idempotent for repeated identical partial
updates — a second application of the same update dictionary to the state
produced by a successful first application succeeds and changes nothing. -/
theorem update_issue_idempotent (db : DB) (iid : Nat) (L : List FieldUpdate)
    (u : User) (db' : DB) (h : updateIssue db iid L u = .ok db') :
    updateIssue db' iid L u = .ok db' := by
  cases hf : db.findIssue iid with
  | none =>
    simp only [updateIssue, hf] at h
    exact absurd h (by simp)
  | some issue =>
    simp only [updateIssue, hf,
      if_neg (not_not_intro
        (show issueServiceUserCanAccessIssue u issue = true from rfl))] at h
    have hi : (db.findIssue iid).isSome = true := by rw [hf]; rfl
    have hoks := applyIssueUpdates_fieldOK iid u L db db' hi h
    have hchar := applyIssueUpdates_char iid u L db hi hoks
    rw [h] at hchar
    have hdb' : db' = db.setIssue iid (fun i => L.foldl applyFieldPure i) := by
      injection hchar with h1
    have hf' : db'.findIssue iid = some (L.foldl applyFieldPure issue) := by
      rw [hdb', findIssue_setIssue db iid _ (fun i => foldPure_id L i), hf]
      rfl
    simp only [updateIssue, hf',
      if_neg (not_not_intro
        (show issueServiceUserCanAccessIssue u (L.foldl applyFieldPure issue) = true
          from rfl))]
    have hi' : (db'.findIssue iid).isSome = true := by rw [hf']; rfl
    have hoks' : ∀ f ∈ L, fieldOK db'.users f = true := by
      intro f hfm
      rw [hdb']
      exact hoks f hfm
    rw [applyIssueUpdates_char iid u L db' hi' hoks', hdb',
      setIssue_setIssue db iid _ _ (fun i => foldPure_id L i)]
    have hfun : (fun i => L.foldl applyFieldPure (L.foldl applyFieldPure i))
        = (fun i => L.foldl applyFieldPure i) :=
      funext (fun i => foldPure_idem L i)
    rw [hfun]

/-- Witness for C9: assigning the fixture issue to the manager twice
equals doing it once. -/
theorem update_issue_idempotent_witness :
    updateIssue dbWithIssue 2 [FieldUpdate.assignee_id (some 5)] mgrUser
        = .ok dbWithIssueAssigned ∧
      updateIssue dbWithIssueAssigned 2 [FieldUpdate.assignee_id (some 5)] mgrUser
        = .ok dbWithIssueAssigned :=
  ⟨by rfl,
   update_issue_idempotent dbWithIssue 2 [FieldUpdate.assignee_id (some 5)]
     mgrUser dbWithIssueAssigned (by rfl)⟩

end Buro
